import Mathlib

/-!
Shallow embedding of the `bitbrowser` Go package (repository
`lpg-it/go-antidetect`): the error taxonomy and retryability classifier
(`errors.go`), the retry engine (`retry.go`), the Managed-Mode port
allocator (`PortManager`, exclusion-strategy version) and the managed
browser-open protocol (`client.go`), together with theorems settling the
specification claims about them.

Machine integers are modelled as `Int` (Go `int`/`int64` overflow does not
arise at the values involved), `float64` delay arithmetic is modelled over
`ℚ` (the exact real-number value of the expressions computed by the code),
and the randomness of `rand.Shuffle` / `rand.Float64` is modelled by
explicit permutation / sample parameters.
-/

namespace Bitbrowser

/-- The five sentinel errors declared at the top of `errors.go`:
`ErrNetwork`, `ErrAPI`, `ErrValidation`, `ErrTimeout`, `ErrRetryExhausted`. -/
inductive Sentinel where
  | network
  | api
  | validation
  | timeout
  | retryExhausted
deriving DecidableEq, Repr

/-- Go `error` values handled by the package.  `nilError` is Go's nil
`error` interface value.  The typed constructors mirror the structs of
`errors.go` (`NetworkError`, `APIError`, `ValidationError`, `TimeoutError`,
`RetryError`), `sentinelError` is one of the five package-level sentinel
values themselves, `basic` is an `errors.New` / `fmt.Errorf`-without-`%w`
error carrying only its message, and `wrapf` is a `fmt.Errorf` error built
with a trailing `: %w` verb wrapping a cause. -/
inductive GoError where
  | nilError
  | networkError (op url : String) (err : GoError)
  | apiError (statusCode : Int) (message endpoint : String) (err : GoError)
  | validationError (field message : String)
  | timeoutError (op duration : String) (err : GoError)
  | retryError (attempts : Int) (lastErr : GoError)
  | sentinelError (s : Sentinel)
  | basic (msg : String)
  | wrapf (msg : String) (cause : GoError)
deriving DecidableEq, Repr

/-- One step of Go's `errors.Unwrap`: the `Unwrap` methods of `errors.go`
(`NetworkError`/`APIError`/`TimeoutError` return their `Err` field,
`RetryError` returns `LastErr`, `ValidationError` returns nil) and a
`fmt.Errorf`-with-`%w` error unwraps to its cause; every other error has
no `Unwrap` method, which `errors.Unwrap` reports as nil. -/
def GoError.unwrap : GoError → GoError
  | .networkError _ _ e => e
  | .apiError _ _ _ e => e
  | .validationError _ _ => .nilError
  | .timeoutError _ _ e => e
  | .retryError _ e => e
  | .wrapf _ c => c
  | _ => .nilError

/-- Go's `errors.Is(err, target)` specialised to the five sentinel targets,
which is the only way `errors.go` uses it.  `errors.Is` walks the unwrap
chain; at each element it checks interface equality with the target and
then the element's own `Is` method.  The `Is` methods of `errors.go`
compare the target against exactly one sentinel each (`NetworkError` →
`ErrNetwork`, `APIError` → `ErrAPI`, `ValidationError` → `ErrValidation`,
`TimeoutError` → `ErrTimeout`, `RetryError` → `ErrRetryExhausted`); plain
`errors.New` errors only ever equal a sentinel if they are that sentinel
value itself. -/
def errorsIs : GoError → Sentinel → Bool
  | .nilError, _ => false
  | .networkError _ _ e, t => (Sentinel.network == t) || errorsIs e t
  | .apiError _ _ _ e, t => (Sentinel.api == t) || errorsIs e t
  | .validationError _ _, t => Sentinel.validation == t
  | .timeoutError _ _ e, t => (Sentinel.timeout == t) || errorsIs e t
  | .retryError _ e, t => (Sentinel.retryExhausted == t) || errorsIs e t
  | .sentinelError s, t => s == t
  | .basic _, _ => false
  | .wrapf _ c, t => errorsIs c t

/-- Go's `errors.As(err, &apiErr)` for `apiErr : *APIError`, as used by
`IsRetryable`: walk the unwrap chain and return the status code of the
first `APIError` found, if any. -/
def firstAPIStatus : GoError → Option Int
  | .apiError code _ _ _ => some code
  | .networkError _ _ e => firstAPIStatus e
  | .timeoutError _ _ e => firstAPIStatus e
  | .retryError _ e => firstAPIStatus e
  | .wrapf _ c => firstAPIStatus c
  | _ => none

/-- `IsRetryable` from `errors.go` (lines 137–187).  The numeric literals
are the `net/http` constants used by the source:
`http.StatusInternalServerError` = 500, `http.StatusTooManyRequests` = 429,
`http.StatusServiceUnavailable` = 503, `http.StatusBadGateway` = 502,
`http.StatusGatewayTimeout` = 504. -/
def IsRetryable (err : GoError) : Bool :=
  if err = .nilError then false
  else if errorsIs err .network then true
  else if errorsIs err .timeout then true
  else
    match firstAPIStatus err with
    | some statusCode =>
      if 500 ≤ statusCode then true
      else if statusCode = 429 then true
      else if statusCode = 503 then true
      else if statusCode = 502 ∨ statusCode = 504 then true
      else false
    | none =>
      if errorsIs err .validation then false
      else if errorsIs err .retryExhausted then false
      else false

/-- C3 (counterexample): the claim predicts that an API error with status
code 501 — a 5xx code outside {429, 500, 502, 503, 504} — is classified not
retryable, but `IsRetryable` returns true for it, because the code treats
every status ≥ `http.StatusInternalServerError` (500) as retryable. -/
theorem isRetryable_api_status_501 :
    IsRetryable (.apiError 501 "not implemented" "/browser/open" .nilError) = true ∧
    ¬ (501 = 429 ∨ 501 = 500 ∨ 501 = 502 ∨ 501 = 503 ∨ 501 = 504) := by
  constructor
  · decide
  · decide

/-- C3 (amended): for every plain API-kind error (an `APIError` with no
wrapped cause), the default classifier `IsRetryable` returns true if and
only if the error's status code is 429 or at least 500; in particular all
5xx codes, including 501 and 505, are retryable, and every other code is
not. -/
theorem isRetryable_apiError_iff (code : Int) (msg ep : String) :
    IsRetryable (.apiError code msg ep .nilError) =
      (decide (code = 429) || decide (500 ≤ code)) := by
  simp only [IsRetryable, errorsIs, firstAPIStatus, Bool.or_false, reduceCtorEq,
    if_false]
  by_cases h5 : 500 ≤ code
  · simp [h5]
  · by_cases h429 : code = 429
    · simp [h5, h429]
    · have h503 : ¬ code = 503 := by omega
      have h502 : ¬ (code = 502 ∨ code = 504) := by omega
      simp [h5, h429, h503, h502]

/-- C4 (counterexample): the claim predicts that every `RetryError`
(RetryExhausted kind) is classified not retryable regardless of the error
it wraps, but `IsRetryable` of a `RetryError` wrapping a `NetworkError`
returns true: the `errors.Is(err, ErrNetwork)` check runs first and
traverses the unwrap chain through the `RetryError` into its cause. -/
theorem isRetryable_retryError_wrapping_network :
    IsRetryable
      (.retryError 3 (.networkError "connect" "http://127.0.0.1:54345" .nilError)) =
      true := by
  decide

/-- C4 (amended): a `RetryError` is classified not retryable exactly when
its wrapped cause chain itself triggers none of the earlier checks: if the
chain contains no Network-kind error, no Timeout-kind error and no
`APIError`, then `IsRetryable` returns false; a `RetryError` wrapping a
retryable error (such as a Network or Timeout error) is classified
retryable because the sentinel checks traverse the unwrap chain before the
RetryExhausted check is reached. -/
theorem isRetryable_retryError_false (n : Int) (e : GoError)
    (hn : errorsIs e .network = false) (ht : errorsIs e .timeout = false)
    (ha : firstAPIStatus e = none) :
    IsRetryable (.retryError n e) = false := by
  simp [IsRetryable, errorsIs, firstAPIStatus, hn, ht, ha]

/-- Witness for `isRetryable_retryError_false` at a concrete input: a
`RetryError` wrapping a plain `errors.New` error is not retryable. -/
theorem isRetryable_retryError_false_witness :
    IsRetryable (.retryError 3 (.basic "connection refused")) = false :=
  isRetryable_retryError_false 3 (.basic "connection refused")
    (by decide) (by decide) (by decide)

/-- `RetryConfig` from `retry.go`.  `BaseDelay` and `MaxDelay` are
`time.Duration` (an int64 count of nanoseconds); `Multiplier` and `Jitter`
are `float64`, modelled over `ℚ`; `RetryIf` is a nil-able function
pointer, with none standing for Go nil. -/
structure RetryConfig where
  maxAttempts : Int
  baseDelay : Int
  maxDelay : Int
  multiplier : ℚ
  jitter : ℚ
  retryIf : Option (GoError → Bool)

/-- Model of the `context.Context` cancellation token as observed by
`retryer.do`: `cancelledBeforeAttempt n` is whether the `ctx.Err() != nil`
check before attempt `n` (1-indexed) fires, `cancelledDuringDelay n` is
whether `ctx.Done()` wins the `select` against `time.After(delay)` during
the delay that follows attempt `n`, and `err` is the non-nil error
`ctx.Err()` reports once cancelled. -/
structure Ctx where
  cancelledBeforeAttempt : Nat → Bool
  cancelledDuringDelay : Nat → Bool
  err : GoError

/-- Result of a run of `retryer.do`: the returned `error` value
(`nilError` on success) together with the number of times the operation
`fn` was invoked. -/
structure DoResult where
  err : GoError
  calls : Nat
deriving DecidableEq, Repr

/-- The code run after the `for` loop of `retryer.do` exits (lines
113–117): with more than one configured attempt the last error is wrapped
as `NewRetryError(MaxAttempts, lastErr)`, otherwise it is returned raw. -/
def exhaustedResult (maxN : Nat) (lastErr : GoError) : GoError :=
  if 1 < maxN then .retryError (maxN : Int) lastErr else lastErr

/-- The `for attempt := 1; attempt <= MaxAttempts; attempt++` loop of
`retryer.do` (lines 77–111), as a fuel recursion with
`fuel = MaxAttempts + 1 - attempt`.  `fn n` is the error returned by the
n-th invocation of the operation.  Each case mirrors the loop body in
source order: context check, invocation, success return, `break` on the
last attempt, non-retryable return, and the cancellation-aware delay
(`calculateDelay`'s result only affects timing, not the returned value,
so the sleep itself is not modelled). -/
def doLoop (retryIf : GoError → Bool) (ctx : Ctx) (fn : Nat → GoError)
    (maxN : Nat) : Nat → Nat → GoError → DoResult
  | 0, _, lastErr => ⟨exhaustedResult maxN lastErr, 0⟩
  | fuel + 1, attempt, lastErr =>
    if ctx.cancelledBeforeAttempt attempt then
      if lastErr ≠ .nilError then ⟨.retryError ((attempt : Int) - 1) lastErr, 0⟩
      else ⟨ctx.err, 0⟩
    else
      let e := fn attempt
      if e = .nilError then ⟨.nilError, 1⟩
      else if maxN ≤ attempt then ⟨exhaustedResult maxN e, 1⟩
      else if ¬ retryIf e then ⟨e, 1⟩
      else if ctx.cancelledDuringDelay attempt then
        ⟨.retryError (attempt : Int) e, 1⟩
      else
        let r := doLoop retryIf ctx fn maxN fuel (attempt + 1) e
        ⟨r.err, r.calls + 1⟩

/-- Normalisation of `MaxAttempts` at the top of `retryer.do` (lines
67–69): a non-positive value is replaced by 1. -/
def effMaxAttempts (cfg : RetryConfig) : Nat :=
  if cfg.maxAttempts ≤ 0 then 1 else cfg.maxAttempts.toNat

/-- The effective retry predicate of `retryer.do` (lines 71–74): a nil
`RetryIf` defaults to `IsRetryable`. -/
def effRetryIf (cfg : RetryConfig) : GoError → Bool :=
  cfg.retryIf.getD IsRetryable

/-- `retryer.do` (retry.go lines 66–118): normalise `MaxAttempts`, default
the retry predicate, and run the loop from attempt 1 with a nil
`lastErr`. -/
def retryerDo (cfg : RetryConfig) (ctx : Ctx) (fn : Nat → GoError) : DoResult :=
  doLoop (effRetryIf cfg) ctx fn (effMaxAttempts cfg) (effMaxAttempts cfg) 1 .nilError

/-- A cancellation token that never cancels. -/
def neverCancelled (ctx : Ctx) : Prop :=
  (∀ n, ctx.cancelledBeforeAttempt n = false) ∧
  (∀ n, ctx.cancelledDuringDelay n = false)

/-- Helper for C1: running the loop from attempt `a` with `fuel = maxN + 1 - a`
when every invocation fails with a retryable error and the token never
cancels ends with the last attempt's error wrapped in a `RetryError`. -/
theorem doLoop_allFail (retryIf : GoError → Bool) (ctx : Ctx) (fn : Nat → GoError)
    (maxN : Nat) (hmax : 2 ≤ maxN) (hctx : neverCancelled ctx)
    (hfail : ∀ n, fn n ≠ .nilError) (hretry : ∀ n, retryIf (fn n) = true) :
    ∀ fuel attempt lastErr, attempt + fuel = maxN + 1 → 1 ≤ fuel →
      doLoop retryIf ctx fn maxN fuel attempt lastErr =
        ⟨.retryError (maxN : Int) (fn maxN), fuel⟩ := by
  intro fuel
  induction fuel with
  | zero => intro attempt lastErr _ h1; omega
  | succ k ih =>
    intro attempt lastErr hsum _
    rw [doLoop]
    rw [hctx.1 attempt]
    simp only [Bool.false_eq_true, if_false]
    rw [if_neg (hfail attempt)]
    by_cases hlast : maxN ≤ attempt
    · rw [if_pos hlast]
      have ha : attempt = maxN := by omega
      have hk : k = 0 := by omega
      rw [ha, hk]
      simp only [exhaustedResult]
      rw [if_pos (by omega : 1 < maxN)]
    · rw [if_neg hlast]
      rw [if_neg (by simp [hretry attempt])]
      rw [hctx.2 attempt]
      simp only [Bool.false_eq_true, if_false]
      have hk1 : 1 ≤ k := by omega
      rw [ih (attempt + 1) (fn attempt) (by omega) hk1]

/-- C1: for every `RetryConfig` with `MaxAttempts = N > 1` and every
operation that fails on each invocation with an error the effective retry
predicate classifies as retryable, `retryer.do` (with a token that never
cancels) invokes the operation exactly N times, returns a `RetryError`
with `Attempts = N` wrapping the error of the N-th (last) invocation, and
that returned error unwraps to the last invocation's error. -/
theorem retryerDo_allFail_retryable (cfg : RetryConfig) (ctx : Ctx)
    (fn : Nat → GoError) (N : Nat) (hN : 2 ≤ N) (hcfg : cfg.maxAttempts = (N : Int))
    (hctx : neverCancelled ctx) (hfail : ∀ n, fn n ≠ .nilError)
    (hretry : ∀ n, (cfg.retryIf.getD IsRetryable) (fn n) = true) :
    retryerDo cfg ctx fn = ⟨.retryError (N : Int) (fn N), N⟩ ∧
      (retryerDo cfg ctx fn).err.unwrap = fn N := by
  have hpos : ¬ cfg.maxAttempts ≤ 0 := by omega
  have hnorm : effMaxAttempts cfg = N := by
    rw [effMaxAttempts, if_neg hpos, hcfg]; exact Int.toNat_natCast N
  have hmain : retryerDo cfg ctx fn = ⟨.retryError (N : Int) (fn N), N⟩ := by
    unfold retryerDo
    rw [hnorm]
    exact doLoop_allFail _ ctx fn N hN hctx hfail hretry N 1 .nilError (by omega) (by omega)
  exact ⟨hmain, by rw [hmain, GoError.unwrap]⟩

/-- Witness for `retryerDo_allFail_retryable`: three attempts, an
always-failing network error, default classifier, never-cancelled token. -/
theorem retryerDo_allFail_retryable_witness :
    retryerDo
      ⟨3, 1000000000, 30000000000, 2, (1 : ℚ)/10, none⟩
      ⟨fun _ => false, fun _ => false, .basic "context canceled"⟩
      (fun _ => .networkError "connect" "http://127.0.0.1:54345" .nilError) =
      ⟨.retryError 3 (.networkError "connect" "http://127.0.0.1:54345" .nilError), 3⟩ :=
  (retryerDo_allFail_retryable
    ⟨3, 1000000000, 30000000000, 2, (1 : ℚ)/10, none⟩
    ⟨fun _ => false, fun _ => false, .basic "context canceled"⟩
    (fun _ => .networkError "connect" "http://127.0.0.1:54345" .nilError)
    3 (by omega) (by decide) ⟨fun _ => rfl, fun _ => rfl⟩
    (by
      intro n
      show GoError.networkError "connect" "http://127.0.0.1:54345" GoError.nilError ≠
        GoError.nilError
      decide)
    (by
      intro n
      show IsRetryable
        (GoError.networkError "connect" "http://127.0.0.1:54345" GoError.nilError) = true
      decide)).1

/-- C5: for every `RetryConfig` with `MaxAttempts ≥ 1` whose first
invocation fails with an error that either the effective retry predicate
classifies as not retryable or with `MaxAttempts = 1`, `retryer.do` (with
the token not cancelled before the first attempt) invokes the operation
exactly once and returns that error itself, unchanged — not wrapped in a
`RetryError`. -/
theorem retryerDo_nonRetryable_once (cfg : RetryConfig) (ctx : Ctx) (fn : Nat → GoError)
    (hmax : 1 ≤ cfg.maxAttempts)
    (hc : ctx.cancelledBeforeAttempt 1 = false)
    (hfail : fn 1 ≠ .nilError)
    (hnr : effRetryIf cfg (fn 1) = false ∨ cfg.maxAttempts = 1) :
    retryerDo cfg ctx fn = ⟨fn 1, 1⟩ := by
  unfold retryerDo
  have hm1 : 1 ≤ effMaxAttempts cfg := by
    rw [effMaxAttempts, if_neg (by omega : ¬ cfg.maxAttempts ≤ 0)]
    omega
  obtain ⟨k, hk⟩ : ∃ k, effMaxAttempts cfg = k + 1 := ⟨effMaxAttempts cfg - 1, by omega⟩
  rw [hk, doLoop, hc]
  simp only [Bool.false_eq_true, if_false]
  rw [if_neg hfail]
  by_cases hone : effMaxAttempts cfg ≤ 1
  · rw [hk] at hone
    rw [if_pos (by omega : k + 1 ≤ 1)]
    simp only [exhaustedResult]
    rw [if_neg (by omega : ¬ 1 < k + 1)]
  · have hm2 : ¬ k + 1 ≤ 1 := by omega
    rw [if_neg hm2]
    have hnr' : effRetryIf cfg (fn 1) = false := by
      rcases hnr with h | h
      · exact h
      · exfalso
        rw [effMaxAttempts, if_neg (by omega : ¬ cfg.maxAttempts ≤ 0), h] at hone
        exact hone (by decide)
    rw [if_pos (by simp [hnr'])]

/-- Witness for `retryerDo_nonRetryable_once`: three configured attempts,
default classifier, a validation error on the first attempt. -/
theorem retryerDo_nonRetryable_once_witness :
    retryerDo
      ⟨3, 1000000000, 30000000000, 2, (1 : ℚ)/10, none⟩
      ⟨fun _ => false, fun _ => false, .basic "context canceled"⟩
      (fun _ => .validationError "id" "required") =
      ⟨.validationError "id" "required", 1⟩ :=
  retryerDo_nonRetryable_once
    ⟨3, 1000000000, 30000000000, 2, (1 : ℚ)/10, none⟩
    ⟨fun _ => false, fun _ => false, .basic "context canceled"⟩
    (fun _ => .validationError "id" "required")
    (by decide) rfl
    (by
      show GoError.validationError "id" "required" ≠ GoError.nilError
      decide)
    (Or.inl (by
      show IsRetryable (GoError.validationError "id" "required") = false
      decide))

/-- Helper for C6: a run that reaches attempt `a` (every earlier attempt
failed retryable with no cancellation) and finds the token cancelled in the
check before attempt `a` returns without invoking the operation again:
the context error if `a = 1`, else a `RetryError` carrying the `a - 1`
attempts completed so far and wrapping the last produced error. -/
theorem doLoop_cancelledBefore (retryIf : GoError → Bool) (ctx : Ctx)
    (fn : Nat → GoError) (maxN a : Nat) (ha : 1 ≤ a) (ham : a ≤ maxN)
    (hcb : ctx.cancelledBeforeAttempt a = true)
    (hprev : ∀ i, 1 ≤ i → i < a →
      ctx.cancelledBeforeAttempt i = false ∧ ctx.cancelledDuringDelay i = false ∧
      fn i ≠ .nilError ∧ retryIf (fn i) = true) :
    ∀ fuel attempt lastErr, attempt + fuel = maxN + 1 → 1 ≤ attempt → attempt ≤ a →
      lastErr = (if attempt = 1 then GoError.nilError else fn (attempt - 1)) →
      doLoop retryIf ctx fn maxN fuel attempt lastErr =
        ⟨(if a = 1 then ctx.err else .retryError ((a : Int) - 1) (fn (a - 1))),
          a - attempt⟩ := by
  intro fuel
  induction fuel with
  | zero => intro attempt lastErr hsum h1 hle _; omega
  | succ k ih =>
    intro attempt lastErr hsum h1 hle hinv
    rw [doLoop]
    by_cases heq : attempt = a
    · subst heq
      rw [hcb]
      simp only [if_true]
      by_cases hone : attempt = 1
      · subst hone
        rw [hinv]
        simp only [if_pos rfl]
        rw [if_neg (by simp)]
        simp
      · rw [hinv, if_neg hone]
        rw [if_pos (hprev (attempt - 1) (by omega) (by omega)).2.2.1]
        have : ((attempt : Int) - 1) = ((attempt : Int) - 1) := rfl
        simp only [if_neg hone]
        congr 1
        omega
    · have hlt : attempt < a := by omega
      obtain ⟨hcbi, hcdi, hfi, hri⟩ := hprev attempt h1 hlt
      rw [hcbi]
      simp only [Bool.false_eq_true, if_false]
      rw [if_neg hfi]
      rw [if_neg (by omega : ¬ maxN ≤ attempt)]
      rw [if_neg (by simp [hri])]
      rw [hcdi]
      simp only [Bool.false_eq_true, if_false]
      rw [ih (attempt + 1) (fn attempt) (by omega) (by omega) (by omega)
        (by rw [if_neg (by omega : ¬ attempt + 1 = 1)]; simp)]
      simp only
      congr 1
      omega

/-- C6: for every run of `retryer.do` in which the token is found
cancelled in the check before attempt `a` (each earlier attempt, if any,
failed with a retryable error and saw no cancellation): with no prior
attempt (`a = 1`) the context's error is returned immediately with the
operation never invoked; with prior failures the result is a `RetryError`
carrying the `a - 1` attempts completed so far and wrapping the last
attempt's error — in both cases the operation is invoked exactly `a - 1`
times, so it is not invoked again after the cancellation check. -/
theorem retryerDo_cancelledBefore (cfg : RetryConfig) (ctx : Ctx) (fn : Nat → GoError)
    (a : Nat) (ha : 1 ≤ a) (ham : a ≤ effMaxAttempts cfg)
    (hcb : ctx.cancelledBeforeAttempt a = true)
    (hprev : ∀ i, 1 ≤ i → i < a →
      ctx.cancelledBeforeAttempt i = false ∧ ctx.cancelledDuringDelay i = false ∧
      fn i ≠ .nilError ∧ effRetryIf cfg (fn i) = true) :
    retryerDo cfg ctx fn =
      ⟨(if a = 1 then ctx.err else .retryError ((a : Int) - 1) (fn (a - 1))),
        a - 1⟩ := by
  unfold retryerDo
  exact doLoop_cancelledBefore (effRetryIf cfg) ctx fn (effMaxAttempts cfg) a ha ham
    hcb hprev (effMaxAttempts cfg) 1 .nilError (by omega) (by omega) ha
    (by rw [if_pos rfl])

/-- Witness for `retryerDo_cancelledBefore`: cancelled before attempt 2
after one failed attempt; the result is a `RetryError` with one attempt
recorded, and the operation ran exactly once. -/
theorem retryerDo_cancelledBefore_witness :
    retryerDo
      ⟨3, 10000000, 1000000000, 1, 0, some (fun _ => true)⟩
      ⟨fun n => n == 2, fun _ => false, .basic "context canceled"⟩
      (fun _ => .basic "always fail") =
      ⟨.retryError 1 (.basic "always fail"), 1⟩ := by
  have h := retryerDo_cancelledBefore
    ⟨3, 10000000, 1000000000, 1, 0, some (fun _ => true)⟩
    ⟨fun n => n == 2, fun _ => false, .basic "context canceled"⟩
    (fun _ => .basic "always fail")
    2 (by omega) (by decide) rfl
    (by
      intro i h1 h2
      have hi : i = 1 := by omega
      subst hi
      refine ⟨rfl, rfl, ?_, rfl⟩
      show GoError.basic "always fail" ≠ GoError.nilError
      decide)
  simpa using h

/-- `retryer.calculateDelay` (retry.go lines 122–142) over `ℚ`: the exact
value of the `float64` expression computed by the code (the final
`time.Duration(delay)` int64 truncation is not modelled).  `u` models the
`rand.Float64()` sample drawn when jitter is applied. -/
def calculateDelay (cfg : RetryConfig) (attempt : Int) (u : ℚ) : ℚ :=
  let att := if attempt ≤ 0 then 1 else attempt
  let delay : ℚ := (cfg.baseDelay : ℚ) * cfg.multiplier ^ (att - 1).toNat
  let delay := if 0 < cfg.maxDelay ∧ (cfg.maxDelay : ℚ) < delay then (cfg.maxDelay : ℚ) else delay
  if 0 < cfg.jitter then
    let jitterRange := delay * cfg.jitter
    delay - jitterRange + u * 2 * jitterRange
  else delay

/-- C7 (counterexample): a `RetryConfig` with `Jitter = 0`,
`Multiplier = 2 ≥ 1` and positive `MaxDelay` but a negative `BaseDelay`
satisfies every hypothesis of the claim, yet `calculateDelay` is strictly
decreasing on it (−1 at attempt 1, −2 at attempt 2), refuting the claimed
monotone non-decrease. -/
theorem calculateDelay_negative_base_not_monotone :
    ((⟨1, -1, 10, 2, 0, none⟩ : RetryConfig).jitter = 0 ∧
      1 ≤ (⟨1, -1, 10, 2, 0, none⟩ : RetryConfig).multiplier ∧
      0 < (⟨1, -1, 10, 2, 0, none⟩ : RetryConfig).maxDelay) ∧
    calculateDelay ⟨1, -1, 10, 2, 0, none⟩ 2 0 <
      calculateDelay ⟨1, -1, 10, 2, 0, none⟩ 1 0 := by
  refine ⟨⟨rfl, by norm_num, by norm_num⟩, ?_⟩
  norm_num [calculateDelay]

/-- C7 (amended): for every `RetryConfig` with `Jitter = 0`,
`Multiplier ≥ 1`, positive `MaxDelay` and — additionally — a nonnegative
`BaseDelay`, `calculateDelay attempt` equals
`BaseDelay * Multiplier ^ (attempt − 1)` capped at `MaxDelay`, is
monotonically non-decreasing in the attempt number, never exceeds
`MaxDelay`, and once it reaches `MaxDelay` it stays there. -/
theorem calculateDelay_spec (cfg : RetryConfig) (hj : cfg.jitter = 0)
    (hm : 1 ≤ cfg.multiplier) (hd : 0 < cfg.maxDelay) (hb : 0 ≤ cfg.baseDelay) :
    (∀ (attempt : Int) (u : ℚ), 1 ≤ attempt →
        calculateDelay cfg attempt u =
          min ((cfg.maxDelay : ℚ))
            ((cfg.baseDelay : ℚ) * cfg.multiplier ^ (attempt - 1).toNat)) ∧
    (∀ (a b : Int) (u v : ℚ), 1 ≤ a → a ≤ b →
        calculateDelay cfg a u ≤ calculateDelay cfg b v) ∧
    (∀ (a : Int) (u : ℚ), 1 ≤ a → calculateDelay cfg a u ≤ (cfg.maxDelay : ℚ)) ∧
    (∀ (a : Int) (u : ℚ), 1 ≤ a → calculateDelay cfg a u = (cfg.maxDelay : ℚ) →
        calculateDelay cfg (a + 1) u = (cfg.maxDelay : ℚ)) := by
  have key : ∀ (attempt : Int) (u : ℚ), 1 ≤ attempt →
      calculateDelay cfg attempt u =
        min ((cfg.maxDelay : ℚ))
          ((cfg.baseDelay : ℚ) * cfg.multiplier ^ (attempt - 1).toNat) := by
    intro attempt u h1
    simp only [calculateDelay]
    rw [if_neg (show ¬ (0 : ℚ) < cfg.jitter by rw [hj]; exact lt_irrefl 0)]
    rw [if_neg (by omega : ¬ attempt ≤ 0)]
    by_cases hcap :
        (cfg.maxDelay : ℚ) < (cfg.baseDelay : ℚ) * cfg.multiplier ^ (attempt - 1).toNat
    · rw [if_pos ⟨hd, hcap⟩, min_eq_left hcap.le]
    · rw [if_neg (fun h => hcap h.2), min_eq_right (not_lt.mp hcap)]
  have mono : ∀ (a b : Int) (u v : ℚ), 1 ≤ a → a ≤ b →
      calculateDelay cfg a u ≤ calculateDelay cfg b v := by
    intro a b u v h1 hab
    rw [key a u h1, key b v (h1.trans hab)]
    refine min_le_min (le_refl _) ?_
    refine mul_le_mul_of_nonneg_left ?_ (by exact_mod_cast hb)
    exact pow_le_pow_right₀ hm (Int.toNat_le_toNat (by omega))
  have bound : ∀ (a : Int) (u : ℚ), 1 ≤ a →
      calculateDelay cfg a u ≤ (cfg.maxDelay : ℚ) := by
    intro a u h1
    rw [key a u h1]
    exact min_le_left _ _
  refine ⟨key, mono, bound, ?_⟩
  intro a u h1 heq
  exact le_antisymm (bound (a + 1) u (by omega))
    (heq ▸ mono a (a + 1) u u h1 (by omega))

/-- Witness for `calculateDelay_spec`: the concrete default-like
configuration base = 100, multiplier = 2, maxDelay = 1000 with no jitter —
the delay is non-decreasing from attempt 1 to attempt 4 and stays at or
below the cap. -/
theorem calculateDelay_spec_witness :
    calculateDelay ⟨3, 100, 1000, 2, 0, none⟩ 1 0 ≤
      calculateDelay ⟨3, 100, 1000, 2, 0, none⟩ 4 0 ∧
    calculateDelay ⟨3, 100, 1000, 2, 0, none⟩ 4 0 ≤ (1000 : ℚ) := by
  have h := calculateDelay_spec ⟨3, 100, 1000, 2, 0, none⟩ rfl
    (by norm_num) (by norm_num) (by norm_num)
  exact ⟨h.2.1 1 4 0 0 (by norm_num) (by norm_num),
    by simpa using h.2.2.1 4 0 (by norm_num)⟩

/-- `PortConfig` from `config.go`. -/
structure PortConfig where
  minPort : Int
  maxPort : Int
  maxRetries : Int
deriving DecidableEq, Repr

/-- `PortConfig.IsManaged` (config.go): true iff the receiver is non-nil
and a valid port range is configured.  The Go nil pointer receiver is
modelled by `Option`. -/
def PortConfig.IsManaged : Option PortConfig → Bool
  | none => false
  | some c =>
    decide (0 < c.minPort) && decide (0 < c.maxPort) && decide (c.minPort ≤ c.maxPort)

/-- `PortConfig.PortRangeSize` (config.go): number of ports in the range,
0 when not in Managed Mode. -/
def PortConfig.PortRangeSize : Option PortConfig → Int
  | none => 0
  | some c =>
    if PortConfig.IsManaged (some c) then c.maxPort - c.minPort + 1 else 0

/-- The structured content of the errors produced by `NewPortManager` and
`PortManager.PickPortExcluding` (`part_002`), in source order:
`hostRequired` is "bitbrowser: host is required for Managed Mode port
probing", `notConfigured` is "port manager not configured", `emptyRange`
is "no ports in range [min, max]", and `exhausted` is "no available port
in range [min, max]: all n ports are excluded (BitBrowser is using
them)" — the latter two name the range bounds, `exhausted` also the size
of the exclusion set (`len(excluded)`). -/
inductive PMError where
  | hostRequired
  | notConfigured
  | emptyRange (minPort maxPort : Int)
  | exhausted (minPort maxPort : Int) (excludedCount : Nat)
deriving DecidableEq, Repr

/-- `PortManager` from `part_002`: the Managed-Mode allocator that
cross-references a remotely queried set of used ports. -/
structure PortManager where
  config : Option PortConfig
  host : String

/-- `NewPortManager` (part_002 lines 31–39): nil manager with no error
when Managed Mode is off; an error when it is on but the host is empty. -/
def NewPortManager (config : Option PortConfig) (host : String) :
    Except PMError (Option PortManager) :=
  if config = none ∨ PortConfig.IsManaged config = false then .ok none
  else if host = "" then .error .hostRequired
  else .ok (some ⟨config, host⟩)

/-- `PortManager.generateShuffledPorts` (part_002 lines 81–96): the list
`minPort, minPort+1, …` of `PortRangeSize` ports, shuffled.  The
`rand.Shuffle` Fisher–Yates shuffle is modelled by the explicit `shuffle`
parameter; theorems assume only that it permutes its input.  The
receiver's config is passed dereferenced, as the method is reached only
after `PickPortExcluding` established it is non-nil. -/
def generateShuffledPorts (cfg : PortConfig) (shuffle : List Int → List Int) :
    List Int :=
  shuffle ((List.range (PortConfig.PortRangeSize (some cfg)).toNat).map
    (fun i : Nat => cfg.minPort + (i : Int)))

/-- `PortManager.PickPortExcluding` (part_002 lines 59–79): guard against
a nil or unconfigured manager, generate the shuffled range, and return the
first port not in the excluded set (a nil Go map behaves as the empty
set). -/
def PortManager.PickPortExcluding (pm : Option PortManager) (excluded : Finset Int)
    (shuffle : List Int → List Int) : Except PMError Int :=
  match pm with
  | none => .error .notConfigured
  | some p =>
    match p.config with
    | none => .error .notConfigured
    | some cfg =>
      if PortConfig.IsManaged (some cfg) = false then .error .notConfigured
      else
        let ports := generateShuffledPorts cfg shuffle
        if ports.length = 0 then .error (.emptyRange cfg.minPort cfg.maxPort)
        else
          match ports.find? (fun port => decide (port ∉ excluded)) with
          | some port => .ok port
          | none => .error (.exhausted cfg.minPort cfg.maxPort excluded.card)

/-- `PortManager.PickPort` (part_002 lines 43–45): delegates to
`PickPortExcluding` with a nil exclusion set. -/
def PortManager.PickPort (pm : Option PortManager) (shuffle : List Int → List Int) :
    Except PMError Int :=
  PortManager.PickPortExcluding pm ∅ shuffle

/-- `PortManager.IsActive` (part_002 lines 99–102). -/
def PortManager.IsActive : Option PortManager → Bool
  | none => false
  | some p => p.config.isSome && PortConfig.IsManaged p.config

/-- `PortManager.GetConfig` (part_002 lines 104–110). -/
def PortManager.GetConfig : Option PortManager → Option PortConfig
  | none => none
  | some p => p.config

/-- `PortManager.GetHost` (part_002 lines 112–118). -/
def PortManager.GetHost : Option PortManager → String
  | none => ""
  | some p => p.host

/-- Membership in the unshuffled port list is exactly membership in the
configured range. -/
theorem mem_range_ports (cfg : PortConfig)
    (hman : PortConfig.IsManaged (some cfg) = true) (x : Int) :
    x ∈ (List.range (PortConfig.PortRangeSize (some cfg)).toNat).map
        (fun i : Nat => cfg.minPort + (i : Int)) ↔
      cfg.minPort ≤ x ∧ x ≤ cfg.maxPort := by
  have hm : (0 < cfg.minPort ∧ 0 < cfg.maxPort) ∧ cfg.minPort ≤ cfg.maxPort := by
    simpa [PortConfig.IsManaged] using hman
  obtain ⟨⟨hm1, hm2⟩, hm3⟩ := hm
  have hsize : PortConfig.PortRangeSize (some cfg) = cfg.maxPort - cfg.minPort + 1 := by
    simp [PortConfig.PortRangeSize, hman]
  constructor
  · intro hx
    obtain ⟨i, hi, hix⟩ := List.mem_map.mp hx
    rw [List.mem_range, hsize] at hi
    have hix' : cfg.minPort + (i : Int) = x := hix
    omega
  · intro ⟨hlo, hhi⟩
    refine List.mem_map.mpr ⟨(x - cfg.minPort).toNat, ?_, ?_⟩
    · rw [List.mem_range, hsize]
      omega
    · show cfg.minPort + ((x - cfg.minPort).toNat : Int) = x
      omega

/-- C8: for a managed range and any exclusion set, with the shuffle any
permutation of its input: if the exclusion set covers fewer than
`PortRangeSize` elements, `PickPortExcluding` returns a port inside the
range and outside the exclusion set; if the exclusion set contains every
port of the range, it returns the exhaustion error naming the range (and
the exclusion count). -/
theorem pickPortExcluding_spec (cfg : PortConfig) (host : String)
    (excluded : Finset Int) (shuffle : List Int → List Int)
    (hman : PortConfig.IsManaged (some cfg) = true)
    (hperm : ∀ l, (shuffle l).Perm l) :
    (excluded.card < (PortConfig.PortRangeSize (some cfg)).toNat →
      ∃ p, PortManager.PickPortExcluding (some ⟨some cfg, host⟩) excluded shuffle =
          .ok p ∧ cfg.minPort ≤ p ∧ p ≤ cfg.maxPort ∧ p ∉ excluded) ∧
    ((∀ q : Int, cfg.minPort ≤ q → q ≤ cfg.maxPort → q ∈ excluded) →
      PortManager.PickPortExcluding (some ⟨some cfg, host⟩) excluded shuffle =
        .error (.exhausted cfg.minPort cfg.maxPort excluded.card)) := by
  have hm : (0 < cfg.minPort ∧ 0 < cfg.maxPort) ∧ cfg.minPort ≤ cfg.maxPort := by
    simpa [PortConfig.IsManaged] using hman
  obtain ⟨⟨hm1, hm2⟩, hm3⟩ := hm
  set K := (PortConfig.PortRangeSize (some cfg)).toNat with hKdef
  have hsize : PortConfig.PortRangeSize (some cfg) = cfg.maxPort - cfg.minPort + 1 := by
    simp [PortConfig.PortRangeSize, hman]
  have hKpos : 1 ≤ K := by rw [hKdef, hsize]; omega
  set base := (List.range K).map (fun i : Nat => cfg.minPort + (i : Int)) with hbase
  set ports := generateShuffledPorts cfg shuffle with hports
  have hP : ports.Perm base := hperm base
  have hlen : ports.length = K := by
    rw [hP.length_eq, hbase, List.length_map, List.length_range]
  have hmem : ∀ x, x ∈ ports ↔ cfg.minPort ≤ x ∧ x ≤ cfg.maxPort := by
    intro x
    rw [hP.mem_iff, hbase]
    exact mem_range_ports cfg hman x
  have hstep : PortManager.PickPortExcluding (some ⟨some cfg, host⟩) excluded shuffle =
      (match ports.find? (fun port => decide (port ∉ excluded)) with
        | some port => .ok port
        | none => .error (.exhausted cfg.minPort cfg.maxPort excluded.card)) := by
    show (if PortConfig.IsManaged (some cfg) = false then _ else _) = _
    rw [if_neg (by simp [hman])]
    show (if (generateShuffledPorts cfg shuffle).length = 0 then _ else _) = _
    rw [if_neg (by rw [← hports, hlen]; omega)]
  constructor
  · intro hcard
    have hnodup : base.Nodup := by
      rw [hbase]
      refine List.Nodup.map ?_ (List.nodup_range K)
      intro i j hij
      have h2 : cfg.minPort + (i : Int) = cfg.minPort + (j : Int) := hij
      omega
    have hex : ∃ x ∈ ports, x ∉ excluded := by
      by_contra hall
      push_neg at hall
      have hsub : base.toFinset ⊆ excluded := by
        intro x hx
        exact hall x (hP.mem_iff.mpr (List.mem_toFinset.mp hx))
      have := Finset.card_le_card hsub
      rw [List.toFinset_card_of_nodup hnodup, hbase, List.length_map,
        List.length_range] at this
      omega
    obtain ⟨x, hxp, hxe⟩ := hex
    have hsome : (ports.find? (fun port => decide (port ∉ excluded))).isSome := by
      rw [List.find?_isSome]
      exact ⟨x, hxp, by simpa using hxe⟩
    obtain ⟨p, hfind⟩ := Option.isSome_iff_exists.mp hsome
    have hpin : p ∈ ports := List.mem_of_find?_eq_some hfind
    have hpex : p ∉ excluded := by simpa using List.find?_some hfind
    refine ⟨p, ?_, (hmem p).mp hpin |>.1, (hmem p).mp hpin |>.2, hpex⟩
    rw [hstep, hfind]
  · intro hall
    have hnone : ports.find? (fun port => decide (port ∉ excluded)) = none := by
      rw [List.find?_eq_none]
      intro x hx
      have := (hmem x).mp hx
      simp [hall x this.1 this.2]
    rw [hstep, hnone]

/-- Witness for `pickPortExcluding_spec`: range 50000–50001, identity
shuffle, both ports excluded — the allocator reports exhaustion naming the
range. -/
theorem pickPortExcluding_spec_witness :
    PortManager.PickPortExcluding (some ⟨some ⟨50000, 50001, 10⟩, "127.0.0.1"⟩)
        ({50000, 50001} : Finset Int) id =
      .error (.exhausted 50000 50001 2) := by
  have h := (pickPortExcluding_spec ⟨50000, 50001, 10⟩ "127.0.0.1"
    ({50000, 50001} : Finset Int) id (by decide) (fun l => List.Perm.refl l)).2
    (by
      intro q h1 h2
      have h1' : (50000 : Int) ≤ q := h1
      have h2' : q ≤ 50001 := h2
      simp only [Finset.mem_insert, Finset.mem_singleton]
      omega)
  simpa using h

/-- C10: every `PortManager` entry point is safe on a nil (or unmanaged)
receiver: `PickPortExcluding` and `PickPort` return the not-configured
error and never a port, `IsActive` is false, `GetConfig` and `GetHost`
return empty values, and `NewPortManager` returns a nil manager with no
error whenever the config is nil or not managed. -/
theorem portManager_nil_safe :
    (∀ (excluded : Finset Int) (shuffle : List Int → List Int),
      PortManager.PickPortExcluding none excluded shuffle = .error .notConfigured) ∧
    (∀ shuffle, PortManager.PickPort none shuffle = .error .notConfigured) ∧
    PortManager.IsActive none = false ∧
    PortManager.GetConfig none = none ∧
    PortManager.GetHost none = "" ∧
    (∀ host, NewPortManager none host = .ok none) ∧
    (∀ (cfg : PortConfig) (host : String), PortConfig.IsManaged (some cfg) = false →
      NewPortManager (some cfg) host = .ok none) ∧
    (∀ (pm : PortManager) (excluded : Finset Int) (shuffle : List Int → List Int),
      PortConfig.IsManaged pm.config = false →
      PortManager.PickPortExcluding (some pm) excluded shuffle =
        .error .notConfigured) ∧
    (∀ (pm : PortManager), PortConfig.IsManaged pm.config = false →
      PortManager.IsActive (some pm) = false) := by
  refine ⟨fun _ _ => rfl, fun _ => rfl, rfl, rfl, rfl, fun _ => rfl, ?_, ?_, ?_⟩
  · intro cfg host h
    rw [NewPortManager, if_pos (Or.inr h)]
  · intro pm excluded shuffle h
    show PortManager.PickPortExcluding (some pm) excluded shuffle = _
    rcases hc : pm.config with _ | cfg
    · simp [PortManager.PickPortExcluding, hc]
    · rw [hc] at h
      simp [PortManager.PickPortExcluding, hc, h]
  · intro pm h
    simp [PortManager.IsActive, h]

/-- Witness for `portManager_nil_safe`: the nil receiver and an unmanaged
config at concrete inputs. -/
theorem portManager_nil_safe_witness :
    PortManager.IsActive none = false ∧
    NewPortManager (some ⟨0, 0, 10⟩) "127.0.0.1" = .ok none :=
  ⟨portManager_nil_safe.2.2.1,
    portManager_nil_safe.2.2.2.2.2.2.1 ⟨0, 0, 10⟩ "127.0.0.1" (by decide)⟩

/-- The `Error()` string of each error value (errors.go), with `%v` of a
nested nil error printing "&lt;nil&gt;" as in Go.  Needed because
`isPortConflictError` classifies errors by substring search over this
text. -/
def GoError.render : GoError → String
  | .nilError => "<nil>"
  | .networkError op url e =>
    if op ≠ "" then
      "bitbrowser: network error during " ++ op ++ " to " ++ url ++ ": " ++ e.render
    else "bitbrowser: network error to " ++ url ++ ": " ++ e.render
  | .apiError code msg ep _ =>
    if code ≠ 0 then
      "bitbrowser: API error on " ++ ep ++ " (status " ++ toString code ++ "): " ++ msg
    else "bitbrowser: API error on " ++ ep ++ ": " ++ msg
  | .validationError f m =>
    if f ≠ "" then "bitbrowser: validation error on field \"" ++ f ++ "\": " ++ m
    else "bitbrowser: validation error: " ++ m
  | .timeoutError op dur _ =>
    if dur ≠ "" then "bitbrowser: timeout during " ++ op ++ " after " ++ dur
    else "bitbrowser: timeout during " ++ op
  | .retryError n e =>
    "bitbrowser: retry exhausted after " ++ toString n ++ " attempts: " ++ e.render
  | .sentinelError s =>
    match s with
    | .network => "network error"
    | .api => "API error"
    | .validation => "validation error"
    | .timeout => "timeout error"
    | .retryExhausted => "retry exhausted"
  | .basic m => m
  | .wrapf m c => m ++ ": " ++ c.render

/-- Occurrence of `pat` as a contiguous subsequence of the list: a prefix
check at every position. -/
def listContainsSeq (pat : List Char) : List Char → Bool
  | [] => pat.isEmpty
  | c :: rest => pat.isPrefixOf (c :: rest) || listContainsSeq pat rest

/-- `strings.Contains`: substring search. -/
def strContains (s sub : String) : Bool :=
  listContainsSeq sub.toList s.toList

/-- `Client.isPortConflictError` (client.go lines 675–689): lowercase the
message and look for the known conflict phrases.  `strings.ToLower` and
Lean's `Char.toLower` agree on the ASCII letters appearing in these
patterns (the Chinese phrases have no case). -/
def isPortConflictError (err : GoError) : Bool :=
  if err = .nilError then false
  else
    let errMsg := String.mk (err.render.toList.map Char.toLower)
    strContains errMsg "address already in use" ||
    strContains errMsg "port is already in use" ||
    strContains errMsg "端口被占用" ||
    strContains errMsg "端口已被" ||
    strContains errMsg "port occupied" ||
    strContains errMsg "bind: address already in use"

/-- `fmt.Sscanf(s, "%d", &n)` as used by the verification code: skip
leading whitespace, parse an optional sign and a run of decimal digits; if
no digit is found the scan fails and the target keeps its zero value;
trailing non-digit text is ignored. -/
def sscanfInt (s : String) : Int :=
  let cs := s.toList.dropWhile (fun c => c.isWhitespace)
  let signAndRest : Int × List Char :=
    match cs with
    | '-' :: r => (-1, r)
    | '+' :: r => (1, r)
    | r => (1, r)
  let digits := signAndRest.2.takeWhile (fun c => c.isDigit)
  if digits = [] then 0
  else
    signAndRest.1 *
      digits.foldl (fun acc c => acc * 10 + ((c.toNat - Char.toNat '0' : Nat) : Int)) 0

/-- `OpenOptions` from the API-structures file. -/
structure OpenOptions where
  headless : Bool
  allowLAN : Bool
  incognito : Bool
  ignoreDefaultUrls : Bool
  startURL : String
  customPort : Int
  disableGPU : Bool
  loadExtensions : String
  extraArgs : List String
  waitReady : Bool
  waitTimeout : Int
  pollInterval : Int
deriving DecidableEq, Repr

/-- `OpenConfig`, the raw `/browser/open` request body. -/
structure OpenConfig where
  id : String
  args : List String
  queue : Bool
  ignoreDefaultUrls : Bool
  newPageUrl : String
deriving DecidableEq, Repr

/-- `OpenResult`, the browser connection information. -/
structure OpenResult where
  ws : String
  http : String
  coreVersion : String
  driver : String
  seq : Int
  name : String
  remark : String
  groupId : String
  pid : Int
deriving DecidableEq, Repr

/-- `Client.buildManagedArgs` (client.go lines 583–614): the forced
debugging port and 0.0.0.0 binding first, then the option-driven flags in
source order, then the caller's extra args. -/
def buildManagedArgs (port : Int) (opts : OpenOptions) : List String :=
  let args : List String := []
  let args := args ++ ["--remote-debugging-port=" ++ toString port]
  let args := args ++ ["--remote-debugging-address=0.0.0.0"]
  let args := if opts.headless then args ++ ["--headless"] else args
  let args := if opts.incognito then args ++ ["--incognito"] else args
  let args := if opts.disableGPU then args ++ ["--disable-gpu"] else args
  let args :=
    if opts.loadExtensions ≠ "" then
      args ++ ["--load-extension=" ++ opts.loadExtensions]
    else args
  args ++ opts.extraArgs

/-- The endpoint normalisation applied before returning an `OpenResult`
(client.go lines 476–479). -/
def normalizeHttp (r : OpenResult) : OpenResult :=
  if r.http ≠ "" ∧ ¬ (r.http.startsWith "http://") then
    { r with http := "http://" ++ r.http }
  else r

/-- The `OpenConfig` built for one managed open attempt (client.go lines
403–419): managed args, queue mode, headless forcing a blank start URL and
implying `ignoreDefaultUrls`. -/
def mkOpenConfig (id : String) (port : Int) (opts : OpenOptions) : OpenConfig :=
  { id := id
    args := buildManagedArgs port opts
    queue := true
    ignoreDefaultUrls := opts.ignoreDefaultUrls || opts.headless
    newPageUrl := if opts.headless then "" else opts.startURL }

/-- The `fmt.Errorf` message texts of the allocator errors, as wrapped by
`openWithManagedPort`. -/
def PMError.message : PMError → String
  | .hostRequired => "bitbrowser: host is required for Managed Mode port probing"
  | .notConfigured => "port manager not configured"
  | .emptyRange a b => "no ports in range [" ++ toString a ++ ", " ++ toString b ++ "]"
  | .exhausted a b n =>
    "no available port in range [" ++ toString a ++ ", " ++ toString b ++ "]: all " ++
      toString n ++ " ports are excluded (BitBrowser is using them)"

/-- The `lastErr` recorded by an ownership mismatch (client.go line 471). -/
def mismatchErr (id : String) (port actualPort : Int) : GoError :=
  .basic ("port ownership mismatch: profile " ++ id ++ " should be on port " ++
    toString port ++ " but GetPorts shows port " ++ toString actualPort)

/-- Oracle for the effects performed by a run of `openWithManagedPort`,
indexed by attempt number: the outcome of `getUsedPortsSet`, the shuffle
drawn by the allocator, the outcome of `doOpenRequest` for the request
body built by that attempt, the `GetPorts` ownership re-query (a total map
from profile ID to port string, absent keys giving Go's zero value ""),
and the outcome of `Close` (only logged by the code). -/
structure ManagedEnv where
  usedPorts : Nat → Except GoError (Finset Int)
  shuffle : Nat → List Int → List Int
  openResp : Nat → OpenConfig → Except GoError OpenResult
  verifyPorts : Nat → Except GoError (String → String)
  closeResp : Nat → Except GoError Unit

/-- The exclusion set an attempt hands to the allocator: a failed
`getUsedPortsSet` query is degraded to the empty set (client.go lines
377–386). -/
def usedSetAt (env : ManagedEnv) (attempt : Nat) : Finset Int :=
  match env.usedPorts attempt with
  | .error _ => ∅
  | .ok s => s

/-- The parse of the re-queried port string for the profile (client.go
lines 441–445): the zero value 0 when the entry is absent or unparsable. -/
def actualPortOf (portStr : String) : Int :=
  if portStr ≠ "" then sscanfInt portStr else 0

/-- Externally visible requests issued by the managed open loop. -/
inductive ManagedEvent where
  | openRequest (attempt : Nat) (config : OpenConfig)
  | closeRequest (attempt : Nat) (id : String)
deriving DecidableEq, Repr

/-- The `for attempt := 1; attempt <= maxRetries; attempt++` loop of
`Client.openWithManagedPort` (client.go lines 375–501), with
`fuel = maxRetries + 1 - attempt`: query used ports, pick a port, issue
the open request; on success verify ownership via the re-queried port
snapshot, closing and retrying on a mismatch (a failed re-query is logged
and the result returned anyway); on failure retry on a port-conflict
message, otherwise fail; when the fuel runs out, wrap `lastErr` in the
exhaustion error.  Returns the outcome together with the list of open and
close requests issued. -/
def managedLoop (env : ManagedEnv) (pm : Option PortManager) (id : String)
    (opts : OpenOptions) (maxRetries : Nat) :
    Nat → Nat → GoError → Except GoError OpenResult × List ManagedEvent
  | 0, _, lastErr =>
    (.error (.wrapf ("bitbrowser: failed to open browser after " ++
      toString maxRetries ++ " attempts") lastErr), [])
  | fuel + 1, attempt, _lastErr =>
    match PortManager.PickPortExcluding pm (usedSetAt env attempt)
        (env.shuffle attempt) with
    | .error e =>
      (.error (.wrapf "bitbrowser: failed to allocate port" (.basic e.message)), [])
    | .ok port =>
      let config := mkOpenConfig id port opts
      match env.openResp attempt config with
      | .ok result =>
        match env.verifyPorts attempt with
        | .error _ => (.ok (normalizeHttp result), [.openRequest attempt config])
        | .ok portsMap =>
          let actualPort := actualPortOf (portsMap id)
          if actualPort ≠ port then
            let rest := managedLoop env pm id opts maxRetries fuel (attempt + 1)
              (mismatchErr id port actualPort)
            (rest.1, .openRequest attempt config :: .closeRequest attempt id :: rest.2)
          else (.ok (normalizeHttp result), [.openRequest attempt config])
      | .error err =>
        if isPortConflictError err then
          let rest := managedLoop env pm id opts maxRetries fuel (attempt + 1) err
          (rest.1, .openRequest attempt config :: rest.2)
        else (.error err, [.openRequest attempt config])

/-- `Client.openWithManagedPort` (client.go lines 368–502): normalise the
retry budget (non-positive becomes 10) and run the loop from attempt 1
with a nil `lastErr`. -/
def openWithManagedPort (env : ManagedEnv) (portCfg : PortConfig)
    (pm : Option PortManager) (id : String) (opts : OpenOptions) :
    Except GoError OpenResult × List ManagedEvent :=
  let maxRetries : Nat := if portCfg.maxRetries ≤ 0 then 10 else portCfg.maxRetries.toNat
  managedLoop env pm id opts maxRetries maxRetries 1 .nilError

/-- C2: in the managed-open loop, an attempt `t` whose open request
succeeds but whose ownership re-query succeeds and maps the profile to a
port different from the requested one issues a Close for the profile ID
right after its open request and continues the loop with a fresh port
pick: the run's outcome is exactly the outcome of the loop restarted at
attempt `t + 1` with the mismatch recorded, so the mismatched attempt's
`OpenResult` is never what this attempt returns to the caller. -/
theorem managedLoop_ownership_mismatch (env : ManagedEnv) (pm : Option PortManager)
    (id : String) (opts : OpenOptions) (maxRetries fuel t : Nat) (lastErr : GoError)
    (port : Int) (r : OpenResult) (portsMap : String → String)
    (hpick : PortManager.PickPortExcluding pm (usedSetAt env t) (env.shuffle t) =
      .ok port)
    (hopen : env.openResp t (mkOpenConfig id port opts) = .ok r)
    (hver : env.verifyPorts t = .ok portsMap)
    (hmis : actualPortOf (portsMap id) ≠ port) :
    managedLoop env pm id opts maxRetries (fuel + 1) t lastErr =
      ((managedLoop env pm id opts maxRetries fuel (t + 1)
          (mismatchErr id port (actualPortOf (portsMap id)))).1,
        .openRequest t (mkOpenConfig id port opts) ::
          .closeRequest t id ::
            (managedLoop env pm id opts maxRetries fuel (t + 1)
              (mismatchErr id port (actualPortOf (portsMap id)))).2) := by
  rw [managedLoop, hpick]
  simp only [hopen, hver, if_pos hmis]

/-- Witness for `managedLoop_ownership_mismatch`: a two-port range, a
snapshot mapping the profile to port 9222 while 50000 was requested — the
attempt's success is discarded, the Close is issued, and the run continues
(here into the exhaustion error, the fuel being spent). -/
theorem managedLoop_ownership_mismatch_witness :
    managedLoop
      ⟨fun _ => .ok ∅, fun _ l => l,
        fun _ _ => .ok ⟨"ws://x", "127.0.0.1:50000", "130", "", 1, "p", "", "", 123⟩,
        fun _ => .ok (fun _ => "9222"), fun _ => .ok ()⟩
      (some ⟨some ⟨50000, 50001, 10⟩, "127.0.0.1"⟩) "profile-1"
      ⟨false, false, false, false, "", 0, false, "", [], false, 0, 0⟩
      1 1 1 .nilError =
      ((managedLoop
          ⟨fun _ => .ok ∅, fun _ l => l,
            fun _ _ => .ok ⟨"ws://x", "127.0.0.1:50000", "130", "", 1, "p", "", "", 123⟩,
            fun _ => .ok (fun _ => "9222"), fun _ => .ok ()⟩
          (some ⟨some ⟨50000, 50001, 10⟩, "127.0.0.1"⟩) "profile-1"
          ⟨false, false, false, false, "", 0, false, "", [], false, 0, 0⟩
          1 0 2 (mismatchErr "profile-1" 50000 9222)).1,
        .openRequest 1 (mkOpenConfig "profile-1" 50000
          ⟨false, false, false, false, "", 0, false, "", [], false, 0, 0⟩) ::
          .closeRequest 1 "profile-1" ::
            (managedLoop
              ⟨fun _ => .ok ∅, fun _ l => l,
                fun _ _ => .ok ⟨"ws://x", "127.0.0.1:50000", "130", "", 1, "p", "", "", 123⟩,
                fun _ => .ok (fun _ => "9222"), fun _ => .ok ()⟩
              (some ⟨some ⟨50000, 50001, 10⟩, "127.0.0.1"⟩) "profile-1"
              ⟨false, false, false, false, "", 0, false, "", [], false, 0, 0⟩
              1 0 2 (mismatchErr "profile-1" 50000 9222)).2) := by
  have h := managedLoop_ownership_mismatch
    ⟨fun _ => .ok ∅, fun _ l => l,
      fun _ _ => .ok ⟨"ws://x", "127.0.0.1:50000", "130", "", 1, "p", "", "", 123⟩,
      fun _ => .ok (fun _ => "9222"), fun _ => .ok ()⟩
    (some ⟨some ⟨50000, 50001, 10⟩, "127.0.0.1"⟩) "profile-1"
    ⟨false, false, false, false, "", 0, false, "", [], false, 0, 0⟩
    1 0 1 .nilError 50000
    ⟨"ws://x", "127.0.0.1:50000", "130", "", 1, "p", "", "", 123⟩
    (fun _ => "9222")
    rfl rfl rfl (by decide)
  simpa using h

/-- C9: every managed launch-argument list contains the forced
`--remote-debugging-port=&lt;p&gt;` and `--remote-debugging-address=0.0.0.0`
entries; the list does not depend on the caller's `AllowLAN` and
`CustomPort` options; and every open request issued by the managed loop
carries exactly `buildManagedArgs` of its attempt's allocated port. -/
theorem buildManagedArgs_spec :
    (∀ (port : Int) (opts : OpenOptions),
      ("--remote-debugging-port=" ++ toString port) ∈ buildManagedArgs port opts ∧
      "--remote-debugging-address=0.0.0.0" ∈ buildManagedArgs port opts) ∧
    (∀ (port : Int) (opts : OpenOptions) (b : Bool) (c : Int),
      buildManagedArgs port { opts with allowLAN := b, customPort := c } =
        buildManagedArgs port opts) ∧
    (∀ (env : ManagedEnv) (pm : Option PortManager) (id : String)
        (opts : OpenOptions) (maxRetries fuel attempt : Nat) (lastErr : GoError)
        (t : Nat) (c : OpenConfig),
      ManagedEvent.openRequest t c ∈
          (managedLoop env pm id opts maxRetries fuel attempt lastErr).2 →
      ∃ port, c = mkOpenConfig id port opts ∧
        c.args = buildManagedArgs port opts) := by
  refine ⟨?_, ?_, ?_⟩
  · intro port opts
    constructor <;>
      · simp only [buildManagedArgs]
        split_ifs <;> simp
  · intro port opts b c
    cases opts
    rfl
  · intro env pm id opts maxRetries fuel
    induction fuel with
    | zero =>
      intro attempt lastErr t c h
      simp [managedLoop] at h
    | succ k ih =>
      intro attempt lastErr t c h
      rw [managedLoop] at h
      rcases hpick : PortManager.PickPortExcluding pm (usedSetAt env attempt)
          (env.shuffle attempt) with e | port
      · rw [hpick] at h
        simp at h
      · rw [hpick] at h
        simp only at h
        rcases hopen : env.openResp attempt (mkOpenConfig id port opts) with err | result
        · rw [hopen] at h
          simp only at h
          by_cases hconf : isPortConflictError err
          · rw [if_pos hconf] at h
            simp only [List.mem_cons] at h
            rcases h with h | h
            · exact ⟨port, by injection h with h1 h2; exact ⟨h2, by rw [h2]; rfl⟩⟩
            · exact ih (attempt + 1) err t c h
          · rw [if_neg hconf] at h
            simp only [List.mem_cons, List.not_mem_nil, or_false] at h
            exact ⟨port, by injection h with h1 h2; exact ⟨h2, by rw [h2]; rfl⟩⟩
        · rw [hopen] at h
          simp only at h
          rcases hver : env.verifyPorts attempt with verr | portsMap
          · rw [hver] at h
            simp only [List.mem_cons, List.not_mem_nil, or_false] at h
            exact ⟨port, by injection h with h1 h2; exact ⟨h2, by rw [h2]; rfl⟩⟩
          · rw [hver] at h
            simp only at h
            by_cases hmis : actualPortOf (portsMap id) ≠ port
            · rw [if_pos hmis] at h
              simp only [List.mem_cons] at h
              rcases h with h | h | h
              · exact ⟨port, by injection h with h1 h2; exact ⟨h2, by rw [h2]; rfl⟩⟩
              · exact absurd h (by simp)
              · exact ih (attempt + 1) (mismatchErr id port (actualPortOf (portsMap id))) t c h
            · rw [if_neg hmis] at h
              simp only [List.mem_cons, List.not_mem_nil, or_false] at h
              exact ⟨port, by injection h with h1 h2; exact ⟨h2, by rw [h2]; rfl⟩⟩

/-- Witness for `buildManagedArgs_spec`: the open request recorded by a
run whose open call fails with a non-conflict error carries the managed
argument list for the allocated port 50000. -/
theorem buildManagedArgs_spec_witness :
    ∃ port,
      mkOpenConfig "profile-1" 50000
          ⟨false, false, false, false, "", 0, false, "", [], false, 0, 0⟩ =
        mkOpenConfig "profile-1" port
          ⟨false, false, false, false, "", 0, false, "", [], false, 0, 0⟩ ∧
      (mkOpenConfig "profile-1" 50000
          ⟨false, false, false, false, "", 0, false, "", [], false, 0, 0⟩).args =
        buildManagedArgs port
          ⟨false, false, false, false, "", 0, false, "", [], false, 0, 0⟩ :=
  buildManagedArgs_spec.2.2
    ⟨fun _ => .ok ∅, fun _ l => l, fun _ _ => .error (.basic "boom"),
      fun _ => .ok (fun _ => ""), fun _ => .ok ()⟩
    (some ⟨some ⟨50000, 50001, 10⟩, "127.0.0.1"⟩) "profile-1"
    ⟨false, false, false, false, "", 0, false, "", [], false, 0, 0⟩
    1 1 1 .nilError 1
    (mkOpenConfig "profile-1" 50000
      ⟨false, false, false, false, "", 0, false, "", [], false, 0, 0⟩)
    (by
      have htr : (managedLoop
          ⟨fun _ => .ok ∅, fun _ l => l, fun _ _ => .error (.basic "boom"),
            fun _ => .ok (fun _ => ""), fun _ => .ok ()⟩
          (some ⟨some ⟨50000, 50001, 10⟩, "127.0.0.1"⟩) "profile-1"
          ⟨false, false, false, false, "", 0, false, "", [], false, 0, 0⟩
          1 1 1 .nilError).2 =
          [ManagedEvent.openRequest 1 (mkOpenConfig "profile-1" 50000
            ⟨false, false, false, false, "", 0, false, "", [], false, 0, 0⟩)] := rfl
      rw [htr]
      exact List.mem_singleton.mpr rfl)

end Bitbrowser
